import Mathlib

/-!
Verification of the diff/reconciliation logic of the ernestio/ernestaws
resource adapters, as a shallow embedding of the Go source.

Conventions used throughout this development:
* Go pointer-typed fields (`*int64`, `*string`) that the modelled code
  dereferences unconditionally are embedded as plain values; pointer-typed
  fields whose nil-ness the modelled code observes (the firewall rule ports
  in `Validate`, which the code may dereference while nil) are embedded as
  `Option`, and a nil dereference is a distinct `panicked` outcome.
* Go slices become `List`s; `int64` becomes `Int` (no arithmetic is done on
  ports, only comparisons, so overflow is irrelevant).
* A function that issues provider calls is embedded as a pure function that
  also returns the list of calls it attempted, with the provider's answers
  supplied by an oracle argument; a failed call aborts the sequence exactly
  where the Go code returns the error.
-/

namespace ELB

/-- `elb.Listener` from src/unnamed/part_012: the event's desired listener.
Fields `FromPort`, `ToPort`, `Protocol`, `SSLCertID` are `*int64`/`*string`
in Go; the diff code dereferences them unconditionally, so they are embedded
as plain values. -/
structure Listener where
  fromPort : Int
  toPort : Int
  protocol : String
  sslCertID : String
  deriving DecidableEq, Repr

/-- The AWS SDK `elb.Listener` built by `listenersToCreate` / `mapListeners`. -/
structure AwsListener where
  protocol : String
  loadBalancerPort : Int
  instancePort : Int
  instanceProtocol : String
  sslCertificateId : String
  deriving DecidableEq, Repr

/-- The AWS SDK `elb.ListenerDescription` describing a currently attached
listener (the observed state). -/
structure ListenerDescription where
  listener : AwsListener
  deriving DecidableEq, Repr

/-- `portInUse` (src/unnamed/part_012 lines 403-411): true when some current
listener's LoadBalancerPort equals `port`. -/
def portInUse (listeners : List ListenerDescription) (port : Int) : Bool :=
  listeners.any (fun l => l.listener.loadBalancerPort == port)

/-- `portRemoved` (src/unnamed/part_012 lines 413-421): true when no desired
listener's FromPort equals the current listener's LoadBalancerPort. -/
def portRemoved (ports : List Listener) (listener : ListenerDescription) : Bool :=
  !(ports.any (fun p => p.fromPort == listener.listener.loadBalancerPort))

/-- `listenersToDelete` (lines 459-469): the LoadBalancerPorts of every
current listener whose port is removed. -/
def listenersToDelete (newListeners : List Listener)
    (currentListeners : List ListenerDescription) : List Int :=
  currentListeners.filterMap (fun cl =>
    if portRemoved newListeners cl then some cl.listener.loadBalancerPort else none)

/-- The `elb.Listener` literal built inside `listenersToCreate` (and
`mapListeners`) from a desired listener. -/
def mkAwsListener (l : Listener) : AwsListener :=
  { protocol := l.protocol
    loadBalancerPort := l.fromPort
    instancePort := l.toPort
    instanceProtocol := l.protocol
    sslCertificateId := l.sslCertID }

/-- `listenersToCreate` (lines 471-488): every desired listener whose
FromPort is not in use by a current listener, mapped to an AWS listener. -/
def listenersToCreate (newListeners : List Listener)
    (currentListeners : List ListenerDescription) : List AwsListener :=
  newListeners.filterMap (fun l =>
    if portInUse currentListeners l.fromPort then none else some (mkAwsListener l))

/-- `instancesToRegister` (lines 423-439). Go wraps each instance id string
in an `elb.Instance`; the id strings are the content, so the embedding works
on the ids directly. -/
def instancesToRegister (newInstances : List String)
    (currentInstances : List String) : List String :=
  newInstances.filter (fun i => !(currentInstances.any (fun ci => i == ci)))

/-- `instancesToDeregister` (lines 441-457). -/
def instancesToDeregister (newInstances : List String)
    (currentInstances : List String) : List String :=
  currentInstances.filter (fun ci => !(newInstances.any (fun i => ci == i)))

/-- `subnetsToAttach` (lines 490-506). -/
def subnetsToAttach (newSubnets : List String)
    (currentSubnets : List String) : List String :=
  newSubnets.filter (fun s => !(currentSubnets.any (fun cs => s == cs)))

/-- `subnetsToDetach` (lines 508-524). -/
def subnetsToDetach (newSubnets : List String)
    (currentSubnets : List String) : List String :=
  currentSubnets.filter (fun cs => !(newSubnets.any (fun s => cs == s)))

/-- Simulated application of the listener plan to the observed state, the
spec's `O* = O ∪ toAdd − toRemove`: the current listeners whose port survives
(exactly those not collected by `listenersToDelete`, whose predicate is
`portRemoved`) followed by the listeners `listenersToCreate` builds. -/
def applyListenerPlan (nl : List Listener)
    (cl : List ListenerDescription) : List ListenerDescription :=
  cl.filter (fun c => !(portRemoved nl c))
    ++ (listenersToCreate nl cl).map (fun l => ⟨l⟩)

/-- Simulated application of the instance plan: the current instances not
deregistered (the predicate is the negation of `instancesToDeregister`'s)
followed by the registered ones. -/
def applyInstancePlan (ni ci : List String) : List String :=
  ci.filter (fun c => ni.any (fun i => c == i)) ++ instancesToRegister ni ci

/-- Simulated application of the subnet plan: the current subnets not
detached followed by the attached ones. -/
def applySubnetPlan (ns cs : List String) : List String :=
  cs.filter (fun c => ns.any (fun s => c == s)) ++ subnetsToAttach ns cs

/-- The observed listeners of the spec's end-to-end example: ports 80, 443. -/
def exampleCurrentListeners : List ListenerDescription :=
  [⟨⟨"HTTP", 80, 8080, "HTTP", ""⟩⟩, ⟨⟨"HTTPS", 443, 8443, "HTTPS", "cert-1"⟩⟩]

/-- The desired listeners of the spec's end-to-end example: ports 443, 8080. -/
def exampleDesiredListeners : List Listener :=
  [⟨443, 8443, "HTTPS", "cert-1"⟩, ⟨8080, 8080, "HTTP", ""⟩]

end ELB

/-- Classification of provider calls for the remove-before-add ordering
property. -/
inductive OpKind where
  | remove
  | add
  | other
  deriving DecidableEq, Repr

/-- Sequential execution of a planned call list against an oracle `ok`
answering whether a call succeeds: calls are attempted in order and the
sequence stops at (and includes) the first failing call, matching the Go
early returns on a provider error. -/
def runSeq {α : Type} (ok : α → Bool) : List α → List α
  | [] => []
  | c :: cs => if ok c then c :: runSeq ok cs else [c]

/-- The ordering property of one reconciliation pass: no call classified
`add` occurs before a call classified `remove` in the trace. -/
def removesPrecedeAdds {α : Type} (kind : α → OpKind) (t : List α) : Prop :=
  List.Pairwise (fun x y => kind x = OpKind.add → kind y ≠ OpKind.remove) t

namespace ELB

/-- The ELB provider calls issued by the update helpers
(src/unnamed/part_012). -/
inductive ELBCall where
  | deleteListeners (ports : List Int)
  | createListeners (ls : List AwsListener)
  | deregisterInstances (ids : List String)
  | registerInstances (ids : List String)
  | detachSubnets (ss : List String)
  | attachSubnets (ss : List String)
  deriving DecidableEq, Repr

def elbCallKind : ELBCall → OpKind
  | .deleteListeners _ => .remove
  | .deregisterInstances _ => .remove
  | .detachSubnets _ => .remove
  | .createListeners _ => .add
  | .registerInstances _ => .add
  | .attachSubnets _ => .add

/-- `updateELBListeners` (lines 334-359) as the trace of provider calls it
issues: DeleteLoadBalancerListeners when the delete set is non-empty, then
CreateLoadBalancerListeners when the create set is non-empty; a failed call
returns immediately (`runSeq` truncation). -/
def updateELBListenersCalls (ok : ELBCall → Bool) (nl : List Listener)
    (cl : List ListenerDescription) : List ELBCall :=
  runSeq ok
    ((if (listenersToDelete nl cl).length > 0
        then [ELBCall.deleteListeners (listenersToDelete nl cl)] else [])
      ++ (if (listenersToCreate nl cl).length > 0
        then [ELBCall.createListeners (listenersToCreate nl cl)] else []))

/-- `updateELBInstances` (lines 306-332) as its call trace:
deregister-before-register. -/
def updateELBInstancesCalls (ok : ELBCall → Bool)
    (ni ci : List String) : List ELBCall :=
  runSeq ok
    ((if (instancesToDeregister ni ci).length > 0
        then [ELBCall.deregisterInstances (instancesToDeregister ni ci)] else [])
      ++ (if (instancesToRegister ni ci).length > 0
        then [ELBCall.registerInstances (instancesToRegister ni ci)] else []))

/-- `updateELBNetworks` (lines 361-386) as its call trace:
detach-before-attach. -/
def updateELBNetworksCalls (ok : ELBCall → Bool)
    (ns cs : List String) : List ELBCall :=
  runSeq ok
    ((if (subnetsToDetach ns cs).length > 0
        then [ELBCall.detachSubnets (subnetsToDetach ns cs)] else [])
      ++ (if (subnetsToAttach ns cs).length > 0
        then [ELBCall.attachSubnets (subnetsToAttach ns cs)] else []))

end ELB

namespace Firewall

/-- `rule` from src/firewall/event.go (lines 44-49). All four fields are
pointers in Go and `Validate` observes (or fails to observe) their nil-ness,
so they are embedded as `Option`. -/
structure Rule where
  ip : Option String
  fromPort : Option Int
  toPort : Option Int
  protocol : Option String
  deriving DecidableEq, Repr

/-- The ingress/egress rule lists of `Event.Rules`. -/
structure Rules where
  ingress : List Rule
  egress : List Rule
  deriving DecidableEq, Repr

/-- The fields of the firewall `Event` read by `Validate` and `Update`.
The remaining fields (tags, datacenter name/type, service, body, crypto
key, ...) are not read by the modelled functions. -/
structure Event where
  securityGroupAWSID : Option String
  name : Option String
  networkAWSID : Option String
  rules : Rules
  datacenterRegion : String
  accessKeyID : String
  secretAccessKey : String
  vpcID : String
  subject : String
  deriving DecidableEq, Repr

/-- The firewall package's error values (src/firewall/event.go lines
21-42), one identity per validation failure. -/
inductive FwErr where
  | datacenterID
  | datacenterRegion
  | datacenterCredentials
  | sgAWSID
  | sgName
  | sgRules
  | sgRuleIP
  | sgRuleProtocol
  | sgRuleFromPort
  | sgRuleToPort
  deriving DecidableEq, Repr

/-- Outcome of a Go function that returns an `error` but may also panic:
`ok` models a nil error, `err e` a returned error value, and `panicked` a
runtime panic (here: a nil-pointer dereference). -/
inductive VRes where
  | ok
  | err (e : FwErr)
  | panicked
  deriving DecidableEq, Repr

/-- The per-rule checks of the `Validate` loops (lines 159-187): nil IP and
nil Protocol are caught with typed errors, but `*rule.FromPort` and
`*rule.ToPort` are dereferenced without a nil check, so an absent port is a
nil-pointer dereference (`panicked`). -/
def checkRule (r : Rule) : VRes :=
  if r.ip = none then .err .sgRuleIP
  else if r.protocol = none then .err .sgRuleProtocol
  else
    match r.fromPort with
    | none => .panicked
    | some fp =>
      if fp < 0 ∨ fp > 65535 then .err .sgRuleFromPort
      else
        match r.toPort with
        | none => .panicked
        | some tp => if tp < 0 ∨ tp > 65535 then .err .sgRuleToPort else .ok

/-- The `for _, rule := range ...` loop: first non-ok outcome wins. -/
def checkRuleList : List Rule → VRes
  | [] => .ok
  | r :: rs =>
    match checkRule r with
    | .ok => checkRuleList rs
    | out => out

/-- `Event.Validate` (src/firewall/event.go lines 133-191). The
rules-presence test is written in the source as
`len(ev.Rules.Egress) < 1 && len(ev.Rules.Egress) < 1` — both conjuncts
inspect the egress list. -/
def Validate (ev : Event) : VRes :=
  if ev.vpcID = "" then .err .datacenterID
  else if ev.datacenterRegion = "" then .err .datacenterRegion
  else if ev.accessKeyID = "" ∨ ev.secretAccessKey = "" then .err .datacenterCredentials
  else if ev.subject ≠ "firewall.create.aws" ∧ ev.securityGroupAWSID = none then
    .err .sgAWSID
  else if ev.subject ≠ "firewall.delete.aws" then
    if ev.name = none then .err .sgName
    else if ev.rules.egress.length < 1 ∧ ev.rules.egress.length < 1 then .err .sgRules
    else
      match checkRuleList ev.rules.ingress with
      | .ok => checkRuleList ev.rules.egress
      | out => out
  else .ok

/-- `ec2.IpRange` of the AWS SDK collaborator: a CIDR plus the
human-readable `Description` field the SDK carries alongside it; both are
compared by `reflect.DeepEqual`. -/
structure IpRange where
  cidrIp : Option String
  description : Option String
  deriving DecidableEq, Repr

/-- `ec2.IpPermission` as used by the firewall adapter: the fields
`buildPermissions` populates plus the ranges' full contents, all of which
participate in `reflect.DeepEqual`. -/
structure IpPermission where
  fromPort : Option Int
  toPort : Option Int
  ipProtocol : Option String
  ipRanges : List IpRange
  deriving DecidableEq, Repr

/-- `buildPermissions` (lines 396-409): one single-range permission per
rule, copying the pointer fields and never setting a range description. -/
def buildPermissions (rules : List Rule) : List IpPermission :=
  rules.map (fun r =>
    { fromPort := r.fromPort
      toPort := r.toPort
      ipProtocol := r.protocol
      ipRanges := [{ cidrIp := r.ip, description := none }] })

/-- `ruleExists` (lines 430-437): membership by `reflect.DeepEqual`, i.e.
full structural equality of the permission. -/
def ruleExists (rule : IpPermission) (ruleset : List IpPermission) : Bool :=
  ruleset.any (fun r => decide (r = rule))

/-- `buildRevokePermissions` (lines 411-419): the old permissions that do
not structurally appear in the new set. -/
def buildRevokePermissions (old new : List IpPermission) : List IpPermission :=
  old.filter (fun rule => !(ruleExists rule new))

/-- `deduplicateRules` (lines 421-428). The Go loop walks the index from the
end downward and removes every element that exists in `old`; removing index
i leaves lower indices untouched, so the loop keeps exactly the elements not
in `old`, which this recursion mirrors. -/
def deduplicateRules (rules old : List IpPermission) : List IpPermission :=
  match rules with
  | [] => []
  | r :: rs =>
    if ruleExists r old then deduplicateRules rs old
    else r :: deduplicateRules rs old

/-- Simulated application of the firewall plan to the observed state: the
old permissions not revoked, followed by the deduplicated new ones. -/
def applyFirewallPlan (new old : List IpPermission) : List IpPermission :=
  old.filter (fun r => ruleExists r new) ++ deduplicateRules new old

/-- The EC2 provider calls issued by firewall `Event.Update`
(src/firewall/event.go lines 252-324). `createTags` stands for the
`setTags` tail. -/
inductive FwCall where
  | describeSecurityGroups
  | revokeIngress (ps : List IpPermission)
  | revokeEgress (ps : List IpPermission)
  | authorizeIngress (ps : List IpPermission)
  | authorizeEgress (ps : List IpPermission)
  | createTags
  deriving DecidableEq, Repr

def fwCallKind : FwCall → OpKind
  | .revokeIngress _ => .remove
  | .revokeEgress _ => .remove
  | .authorizeIngress _ => .add
  | .authorizeEgress _ => .add
  | .describeSecurityGroups => .other
  | .createTags => .other

/-- The calls `Event.Update` would issue in program order when every call
succeeds: describe the group, revoke ingress then egress (when non-empty),
authorize ingress then egress (when non-empty), then tag. -/
def fwUpdatePlanned (ingress egress : List Rule)
    (sgIngress sgEgress : List IpPermission) : List FwCall :=
  [FwCall.describeSecurityGroups]
    ++ (if (buildRevokePermissions sgIngress (buildPermissions ingress)).length > 0
        then [FwCall.revokeIngress
          (buildRevokePermissions sgIngress (buildPermissions ingress))] else [])
    ++ (if (buildRevokePermissions sgEgress (buildPermissions egress)).length > 0
        then [FwCall.revokeEgress
          (buildRevokePermissions sgEgress (buildPermissions egress))] else [])
    ++ (if (deduplicateRules (buildPermissions ingress) sgIngress).length > 0
        then [FwCall.authorizeIngress
          (deduplicateRules (buildPermissions ingress) sgIngress)] else [])
    ++ (if (deduplicateRules (buildPermissions egress) sgEgress).length > 0
        then [FwCall.authorizeEgress
          (deduplicateRules (buildPermissions egress) sgEgress)] else [])
    ++ [FwCall.createTags]

/-- The trace of `Event.Update`: the planned calls attempted in order, the
sequence ending at the first call the provider fails. -/
def fwUpdateCalls (ok : FwCall → Bool) (ingress egress : List Rule)
    (sgIngress sgEgress : List IpPermission) : List FwCall :=
  runSeq ok (fwUpdatePlanned ingress egress sgIngress sgEgress)

/-- A firewall update event whose single egress rule has an absent (nil)
`from_port`: all fields checked before the rule loops are present. -/
def nilPortEvent : Event :=
  { securityGroupAWSID := some "sg-123"
    name := some "web"
    networkAWSID := some "subnet-1"
    rules :=
      { ingress := []
        egress := [{ ip := some "0.0.0.0/0", fromPort := none
                     toPort := some 80, protocol := some "tcp" }] }
    datacenterRegion := "eu-west-1"
    accessKeyID := "AKIAEXAMPLE"
    secretAccessKey := "secret"
    vpcID := "vpc-1"
    subject := "firewall.update.aws" }

end Firewall

namespace Route53

/-- `entryName` (src/route53/event.go lines 605-610): strips one trailing
dot. The Go code compares the final byte of the string with "." and slices
it off; the dot is ASCII, so at character level that is: last character is
a dot. On the empty string the Go code would panic on the negative index;
no caller reaches it with an empty name. -/
def entryName (entry : String) : String :=
  if entry.data.getLast? = some (Char.ofNat 46) then String.mk entry.data.dropLast
  else entry

/-- `Record` (lines 342-347); pointer fields dereferenced unconditionally
are embedded as values. -/
structure Record where
  entry : String
  recordType : String
  ttl : Int
  values : List String
  deriving DecidableEq, Repr

/-- `Records.HasRecord` (lines 330-339): true when some desired record's
normalized entry equals the normalized argument. Only the name is compared;
the record type is not consulted. -/
def HasRecord (records : List Record) (entry : String) : Bool :=
  records.any (fun record => entryName record.entry == entryName entry)

/-- `route53.ResourceRecordSet` of the AWS SDK: an observed record set. -/
structure ResourceRecordSet where
  name : String
  recordType : String
  ttl : Int
  resourceRecords : List String
  deriving DecidableEq, Repr

/-- `route53.Change`: an action applied to one record set. -/
structure Change where
  action : String
  resourceRecordSet : ResourceRecordSet
  deriving DecidableEq, Repr

/-- `isDefaultRule` (lines 561-564): an SOA or NS record set whose
normalized name equals the zone's own normalized name. -/
def isDefaultRule (name : String) (record : ResourceRecordSet) : Bool :=
  (entryName record.name == entryName name && record.recordType == "SOA")
    || (entryName record.name == entryName name && record.recordType == "NS")

/-- The fields of the route53 `Event` read by `buildRecordsToRemove`:
the zone name (dereferenced pointer) and the desired records. -/
structure Event where
  name : String
  records : List Record
  deriving DecidableEq, Repr

/-- `buildRecordsToRemove` (lines 566-583): a DELETE change for every
existing record set that no desired record matches by normalized name and
that is not a protected default SOA/NS record of the zone. -/
def buildRecordsToRemove (ev : Event)
    (existing : List ResourceRecordSet) : List Change :=
  existing.filterMap (fun recordSet =>
    if !(HasRecord ev.records recordSet.name) && !(isDefaultRule ev.name recordSet)
      then some { action := "DELETE", resourceRecordSet := recordSet }
      else none)

/-- The spec's delete-path example zone: observed SOA, NS and a www A
record. -/
def exampleSOA : ResourceRecordSet :=
  { name := "example.com.", recordType := "SOA", ttl := 900
    resourceRecords := ["ns-1.awsdns.example. hostmaster.example.com. 1 7200 900 1209600 86400"] }

def exampleNS : ResourceRecordSet :=
  { name := "example.com.", recordType := "NS", ttl := 172800
    resourceRecords := ["ns-1.awsdns.example."] }

def exampleWWW : ResourceRecordSet :=
  { name := "www.example.com.", recordType := "A", ttl := 300
    resourceRecords := ["192.0.2.10"] }

def exampleExisting : List ResourceRecordSet := [exampleSOA, exampleNS, exampleWWW]

/-- The delete path clears the desired records before updating
(`ev.Records = nil`, src/route53/event.go line 504). -/
def exampleDeleteEvent : Event := { name := "example.com", records := [] }

/-- An event desiring a TXT record at www.example.com: same normalized
name as the observed A record, different type. -/
def exampleTXTEvent : Event :=
  { name := "example.com"
    records := [{ entry := "www.example.com", recordType := "TXT", ttl := 300
                  values := ["v=spf1 -all"] }] }

end Route53

namespace Vpc

/-- The vpc `Event` (src/vpc/event.go lines 28-43). `Body` (the
serialization buffer) is omitted; every other field is carried so that
"left unchanged" is meaningful. -/
structure Event where
  uuid : String
  batchID : String
  providerType : String
  datacenterName : String
  datacenterRegion : String
  awsAccessKeyID : String
  awsSecretAccessKey : String
  vpcID : String
  vpcSubnet : String
  errorMessage : String
  subject : String
  cryptoKey : String
  deriving DecidableEq, Repr

/-- The provider calls `Event.Delete` can issue. -/
inductive VpcCall where
  | deleteVpc (vpcID : String)
  deriving DecidableEq, Repr

/-- `Event.Delete` (src/vpc/event.go lines 129-142): issues DeleteVpc for
the event's VPC id; on a provider error it stores a warning in the event's
error field and returns nil, making no further call. Returns the updated
event, the Go return value (`none` = nil error), and the calls issued. -/
def Delete (provider : VpcCall → Except String Unit) (ev : Event) :
    Event × Option String × List VpcCall :=
  match provider (VpcCall.deleteVpc ev.vpcID) with
  | .error e =>
    ({ ev with errorMessage := "WARN : Could not remove the vpc - " ++ e },
      none, [VpcCall.deleteVpc ev.vpcID])
  | .ok _ => (ev, none, [VpcCall.deleteVpc ev.vpcID])

end Vpc

namespace Credentials

/-- The value held by the AWS SDK's static credentials: the collaborator
`credentials.NewStaticCredentials(id, secret, token)` fills the fields in
this positional order (access key ID first, secret second). -/
structure AwsCredentialsValue where
  accessKeyID : String
  secretAccessKey : String
  sessionToken : String
  deriving DecidableEq, Repr

/-- The AWS SDK constructor `credentials.NewStaticCredentials`. -/
def awsNewStaticCredentials (id secret token : String) : AwsCredentialsValue :=
  { accessKeyID := id, secretAccessKey := secret, sessionToken := token }

/-- `NewStaticCredentials` (src/credentials/credentials.go lines 12-28).
`dec` is the external AES collaborator `crypto.Decrypt(cipherText, key)`;
it is only consulted when a crypto key is configured. The source forwards
its two credential arguments to the SDK constructor as
`credentials.NewStaticCredentials(secret, token, "")` — the second argument
first. -/
def NewStaticCredentials (dec : String → String → Except String String)
    (token secret cryptoKey : String) : Except String AwsCredentialsValue :=
  if cryptoKey ≠ "" then
    match dec token cryptoKey with
    | .error e => .error e
    | .ok token2 =>
      match dec secret cryptoKey with
      | .error e => .error e
      | .ok secret2 => .ok (awsNewStaticCredentials secret2 token2 "")
  else .ok (awsNewStaticCredentials secret token "")

/-- A pass-through stand-in for the decrypt collaborator, never consulted
when the crypto key is empty. -/
def decId : String → String → Except String String := fun s _ => .ok s

end Credentials

namespace Firewall

/-- A desired firewall rule: the natural key (cidr, protocol, fromPort,
toPort) = (10.0.0.0/8, tcp, 443, 443). -/
def cexDesiredRule : Rule :=
  { ip := some "10.0.0.0/8", fromPort := some 443
    toPort := some 443, protocol := some "tcp" }

/-- An observed permission with the same natural key but a human-readable
range description, as the provider reports it. -/
def cexObservedPerm : IpPermission :=
  { fromPort := some 443, toPort := some 443, ipProtocol := some "tcp"
    ipRanges := [{ cidrIp := some "10.0.0.0/8"
                   description := some "managed by ernest" }] }

/-- A firewall update event whose ingress list is non-empty but whose
egress list is empty; all fields before the rules-presence check are
present. -/
def egressEmptyEvent : Event :=
  { securityGroupAWSID := some "sg-1"
    name := some "web"
    networkAWSID := some "net-1"
    rules :=
      { ingress := [{ ip := some "0.0.0.0/0", fromPort := some 22
                      toPort := some 22, protocol := some "tcp" }]
        egress := [] }
    datacenterRegion := "eu-west-1"
    accessKeyID := "AKIAEXAMPLE"
    secretAccessKey := "secret"
    vpcID := "vpc-1"
    subject := "firewall.update.aws" }

end Firewall

namespace Vpc

/-- A concrete vpc delete event. -/
def exampleEvent : Event :=
  { uuid := "u-1", batchID := "b-1", providerType := "aws"
    datacenterName := "dc", datacenterRegion := "eu-west-1"
    awsAccessKeyID := "AKIAEXAMPLE", awsSecretAccessKey := "secret"
    vpcID := "vpc-1", vpcSubnet := "10.0.0.0/16", errorMessage := ""
    subject := "vpc.delete.aws", cryptoKey := "" }

/-- A provider that rejects every call with a dependency-violation error. -/
def failingProvider : VpcCall → Except String Unit :=
  fun _ => .error "DependencyViolation"

end Vpc

/-! ## Theorems -/

/-- C1: for a load-balancer listener update the natural key is the
load-balancer port: a current listener's port is scheduled for deletion iff
no desired listener carries it as FromPort; a desired listener's FromPort is
scheduled for creation iff no current listener carries it; and on observed
ports {80, 443} with desired ports {443, 8080} the plan is
toRemove = [80], toAdd = [8080]. -/
theorem C1_listener_plan_by_loadbalancer_port :
    (∀ (nl : List ELB.Listener) (cl : List ELB.ListenerDescription) (p : Int),
      p ∈ ELB.listenersToDelete nl cl ↔
        (∃ c ∈ cl, c.listener.loadBalancerPort = p) ∧ ∀ d ∈ nl, d.fromPort ≠ p) ∧
    (∀ (nl : List ELB.Listener) (cl : List ELB.ListenerDescription)
        (l : ELB.Listener), l ∈ nl →
      ((∃ a ∈ ELB.listenersToCreate nl cl, a.loadBalancerPort = l.fromPort) ↔
        ∀ c ∈ cl, c.listener.loadBalancerPort ≠ l.fromPort)) ∧
    ELB.listenersToDelete ELB.exampleDesiredListeners ELB.exampleCurrentListeners
      = [80] ∧
    (ELB.listenersToCreate ELB.exampleDesiredListeners
        ELB.exampleCurrentListeners).map ELB.AwsListener.loadBalancerPort
      = [8080] := by
  refine ⟨?_, ?_, by decide, by decide⟩
  · intro nl cl p
    simp only [ELB.listenersToDelete, ELB.portRemoved, List.mem_filterMap,
      Bool.not_eq_eq_eq_not, Bool.not_true, List.any_eq_false,
      beq_eq_false_iff_ne, ne_eq, Option.ite_none_right_eq_some,
      Option.some.injEq]
    constructor
    · rintro ⟨c, hc, hall, rfl⟩
      exact ⟨⟨c, hc, rfl⟩, fun d hd => by simpa using hall d hd⟩
    · rintro ⟨⟨c, hc, rfl⟩, hall⟩
      exact ⟨c, hc, fun d hd => by simpa using hall d hd, rfl⟩
  · intro nl cl l hl
    simp only [ELB.listenersToCreate, ELB.portInUse, List.mem_filterMap,
      Option.ite_none_left_eq_some, Option.some.injEq, Bool.not_eq_true,
      List.any_eq_false]
    constructor
    · rintro ⟨a, ⟨d, hd, hno, rfl⟩, hport⟩
      have hdl : d.fromPort = l.fromPort := by
        simpa [ELB.mkAwsListener] using hport
      intro c hc
      have h2 := hno c hc
      rw [hdl] at h2
      simpa using h2
    · intro hall
      refine ⟨ELB.mkAwsListener l, ⟨l, hl, ?_, rfl⟩, rfl⟩
      intro c hc
      simpa using hall c hc

/-- C1 witness: the theorem applied at the spec's example, discharging the
membership hypothesis of the creation characterization at the desired
443-listener (whose port is in use, so it is not created). -/
theorem C1_witness :
    (⟨443, 8443, "HTTPS", "cert-1"⟩ : ELB.Listener) ∈ ELB.exampleDesiredListeners ∧
    ((∃ a ∈ ELB.listenersToCreate ELB.exampleDesiredListeners
          ELB.exampleCurrentListeners,
        a.loadBalancerPort = (⟨443, 8443, "HTTPS", "cert-1"⟩ : ELB.Listener).fromPort) ↔
      ∀ c ∈ ELB.exampleCurrentListeners,
        c.listener.loadBalancerPort ≠ (⟨443, 8443, "HTTPS", "cert-1"⟩ : ELB.Listener).fromPort) :=
  ⟨by decide, C1_listener_plan_by_loadbalancer_port.2.1 _ _ _ (by decide)⟩

/-- `ruleExists` is membership: DeepEqual-based search finds a permission
iff it is structurally present in the ruleset. -/
theorem fw_ruleExists_iff (r : Firewall.IpPermission)
    (l : List Firewall.IpPermission) :
    Firewall.ruleExists r l = true ↔ r ∈ l := by
  simp [Firewall.ruleExists, List.any_eq_true]

/-- Membership in `deduplicateRules`: exactly the new permissions that do
not structurally exist in the old set survive. -/
theorem fw_mem_deduplicateRules (rules old : List Firewall.IpPermission)
    (r : Firewall.IpPermission) :
    r ∈ Firewall.deduplicateRules rules old ↔
      r ∈ rules ∧ Firewall.ruleExists r old = false := by
  induction rules with
  | nil => simp [Firewall.deduplicateRules]
  | cons a t ih =>
    unfold Firewall.deduplicateRules
    by_cases h : Firewall.ruleExists a old
    · rw [if_pos h, ih]
      constructor
      · rintro ⟨hrt, hre⟩
        exact ⟨List.mem_cons_of_mem _ hrt, hre⟩
      · rintro ⟨hr, hre⟩
        rcases List.mem_cons.mp hr with rfl | hrt
        · exact absurd h (by simp [hre])
        · exact ⟨hrt, hre⟩
    · rw [if_neg h]
      constructor
      · intro hmem
        rcases List.mem_cons.mp hmem with rfl | hrt
        · exact ⟨List.mem_cons_self _ _, Bool.eq_false_iff.mpr h⟩
        · obtain ⟨h1, h2⟩ := ih.mp hrt
          exact ⟨List.mem_cons_of_mem _ h1, h2⟩
      · rintro ⟨hr, hre⟩
        rcases List.mem_cons.mp hr with rfl | hrt
        · exact List.mem_cons_self _ _
        · exact List.mem_cons_of_mem _ (ih.mpr ⟨hrt, hre⟩)

/-- C2 counterexample: a desired rule and an observed permission with
identical natural key (cidr, protocol, fromPort, toPort) but a different
range description are NOT treated as the same element: the observed
permission is returned by `buildRevokePermissions` and the desired one is
left intact by `deduplicateRules`, so the rule is removed and re-added. -/
theorem C2_counterexample :
    (∀ q ∈ Firewall.buildPermissions [Firewall.cexDesiredRule],
        q.fromPort = Firewall.cexObservedPerm.fromPort ∧
        q.toPort = Firewall.cexObservedPerm.toPort ∧
        q.ipProtocol = Firewall.cexObservedPerm.ipProtocol ∧
        q.ipRanges.map Firewall.IpRange.cidrIp =
          Firewall.cexObservedPerm.ipRanges.map Firewall.IpRange.cidrIp) ∧
    Firewall.cexObservedPerm ∈
      Firewall.buildRevokePermissions [Firewall.cexObservedPerm]
        (Firewall.buildPermissions [Firewall.cexDesiredRule]) ∧
    Firewall.deduplicateRules
        (Firewall.buildPermissions [Firewall.cexDesiredRule])
        [Firewall.cexObservedPerm] =
      Firewall.buildPermissions [Firewall.cexDesiredRule] := by
  refine ⟨by decide, by decide, by decide⟩

/-- C2 (amended): the firewall diff matches rules by full structural
equality (`reflect.DeepEqual`), not by the natural key: an observed
permission is revoked iff it is not structurally identical to any desired
permission, and a desired permission is authorized iff it is not
structurally identical to any observed one; only structurally identical
rules are unchanged. -/
theorem C2_full_structural_equality :
    ∀ (old new : List Firewall.IpPermission) (r : Firewall.IpPermission),
      (r ∈ Firewall.buildRevokePermissions old new ↔
        r ∈ old ∧ Firewall.ruleExists r new = false) ∧
      (r ∈ Firewall.deduplicateRules new old ↔
        r ∈ new ∧ Firewall.ruleExists r old = false) := by
  intro old new r
  refine ⟨?_, fw_mem_deduplicateRules new old r⟩
  simp [Firewall.buildRevokePermissions, List.mem_filter]

/-- Applying the listener plan leaves nothing to delete. -/
theorem elb_delete_after_apply (nl : List ELB.Listener)
    (cl : List ELB.ListenerDescription) :
    ELB.listenersToDelete nl (ELB.applyListenerPlan nl cl) = [] := by
  unfold ELB.listenersToDelete
  rw [List.filterMap_eq_nil_iff]
  intro c hc
  rcases List.mem_append.mp hc with h | h
  · have h2 := (List.mem_filter.mp h).2
    have h3 : ELB.portRemoved nl c = false := by simpa using h2
    simp [h3]
  · obtain ⟨a, ha, rfl⟩ := List.mem_map.mp h
    obtain ⟨l, hl, hif⟩ := List.mem_filterMap.mp ha
    obtain ⟨hniu, heq⟩ := Option.ite_none_left_eq_some.mp hif
    obtain rfl := Option.some.inj heq
    have h3 : ELB.portRemoved nl ⟨ELB.mkAwsListener l⟩ = false := by
      simp [ELB.portRemoved, List.any_eq_true, ELB.mkAwsListener]
      exact ⟨l, hl, rfl⟩
    simp [h3]

/-- Applying the listener plan leaves nothing to create. -/
theorem elb_create_after_apply (nl : List ELB.Listener)
    (cl : List ELB.ListenerDescription) :
    ELB.listenersToCreate nl (ELB.applyListenerPlan nl cl) = [] := by
  unfold ELB.listenersToCreate
  rw [List.filterMap_eq_nil_iff]
  intro l hl
  have hiu : ELB.portInUse (ELB.applyListenerPlan nl cl) l.fromPort = true := by
    simp only [ELB.portInUse, List.any_eq_true]
    by_cases h : ELB.portInUse cl l.fromPort
    · simp only [ELB.portInUse, List.any_eq_true] at h
      obtain ⟨c, hc, hport⟩ := h
      refine ⟨c, ?_, hport⟩
      unfold ELB.applyListenerPlan
      apply List.mem_append.mpr
      left
      apply List.mem_filter.mpr
      refine ⟨hc, ?_⟩
      have hcl : c.listener.loadBalancerPort = l.fromPort := by simpa using hport
      simp [ELB.portRemoved, List.any_eq_true]
      exact ⟨l, hl, hcl.symm⟩
    · refine ⟨⟨ELB.mkAwsListener l⟩, ?_, by simp [ELB.mkAwsListener]⟩
      unfold ELB.applyListenerPlan
      apply List.mem_append.mpr
      right
      apply List.mem_map.mpr
      refine ⟨ELB.mkAwsListener l, ?_, rfl⟩
      unfold ELB.listenersToCreate
      apply List.mem_filterMap.mpr
      exact ⟨l, hl, by simp [h]⟩
  simp [hiu]

/-- Applying the instance plan leaves nothing to deregister. -/
theorem elb_dereg_after_apply (ni ci : List String) :
    ELB.instancesToDeregister ni (ELB.applyInstancePlan ni ci) = [] := by
  unfold ELB.instancesToDeregister ELB.applyInstancePlan ELB.instancesToRegister
  rw [List.filter_eq_nil_iff]
  intro c hc
  rcases List.mem_append.mp hc with h | h
  · have h2 := (List.mem_filter.mp h).2
    simp [h2]
  · have hcn : c ∈ ni := (List.mem_filter.mp h).1
    simp [List.any_eq_true]
    exact hcn

/-- Applying the instance plan leaves nothing to register. -/
theorem elb_reg_after_apply (ni ci : List String) :
    ELB.instancesToRegister ni (ELB.applyInstancePlan ni ci) = [] := by
  unfold ELB.instancesToRegister
  rw [List.filter_eq_nil_iff]
  intro i hi
  have hany : (ELB.applyInstancePlan ni ci).any (fun x => i == x) = true := by
    simp only [List.any_eq_true]
    by_cases h : ci.any (fun c => i == c)
    · simp only [List.any_eq_true] at h
      obtain ⟨c, hc, hic⟩ := h
      have hci : i = c := beq_iff_eq.mp hic
      subst hci
      refine ⟨i, ?_, by simp⟩
      unfold ELB.applyInstancePlan
      apply List.mem_append.mpr
      left
      apply List.mem_filter.mpr
      refine ⟨hc, ?_⟩
      simp [List.any_eq_true]
      exact hi
    · refine ⟨i, ?_, by simp⟩
      unfold ELB.applyInstancePlan
      apply List.mem_append.mpr
      right
      unfold ELB.instancesToRegister
      apply List.mem_filter.mpr
      exact ⟨hi, by simp [Bool.eq_false_iff.mpr h]⟩
  simp [hany]

/-- Applying the subnet plan leaves nothing to detach. -/
theorem elb_detach_after_apply (ns cs : List String) :
    ELB.subnetsToDetach ns (ELB.applySubnetPlan ns cs) = [] := by
  unfold ELB.subnetsToDetach ELB.applySubnetPlan ELB.subnetsToAttach
  rw [List.filter_eq_nil_iff]
  intro c hc
  rcases List.mem_append.mp hc with h | h
  · have h2 := (List.mem_filter.mp h).2
    simp [h2]
  · have hcn : c ∈ ns := (List.mem_filter.mp h).1
    simp [List.any_eq_true]
    exact hcn

/-- Applying the subnet plan leaves nothing to attach. -/
theorem elb_attach_after_apply (ns cs : List String) :
    ELB.subnetsToAttach ns (ELB.applySubnetPlan ns cs) = [] := by
  unfold ELB.subnetsToAttach
  rw [List.filter_eq_nil_iff]
  intro s hs
  have hany : (ELB.applySubnetPlan ns cs).any (fun x => s == x) = true := by
    simp only [List.any_eq_true]
    by_cases h : cs.any (fun c => s == c)
    · simp only [List.any_eq_true] at h
      obtain ⟨c, hc, hsc⟩ := h
      have hcs : s = c := beq_iff_eq.mp hsc
      subst hcs
      refine ⟨s, ?_, by simp⟩
      unfold ELB.applySubnetPlan
      apply List.mem_append.mpr
      left
      apply List.mem_filter.mpr
      refine ⟨hc, ?_⟩
      simp [List.any_eq_true]
      exact hs
    · refine ⟨s, ?_, by simp⟩
      unfold ELB.applySubnetPlan
      apply List.mem_append.mpr
      right
      unfold ELB.subnetsToAttach
      apply List.mem_filter.mpr
      exact ⟨hs, by simp [Bool.eq_false_iff.mpr h]⟩
  simp [hany]

/-- Applying the firewall plan leaves nothing to revoke. -/
theorem fw_revoke_after_apply (new old : List Firewall.IpPermission) :
    Firewall.buildRevokePermissions (Firewall.applyFirewallPlan new old) new
      = [] := by
  unfold Firewall.buildRevokePermissions Firewall.applyFirewallPlan
  rw [List.filter_eq_nil_iff]
  intro r hr
  rcases List.mem_append.mp hr with h | h
  · have h2 := (List.mem_filter.mp h).2
    simp [h2]
  · have h2 := (fw_mem_deduplicateRules new old r).mp h
    have h3 : Firewall.ruleExists r new = true := (fw_ruleExists_iff r new).mpr h2.1
    simp [h3]

/-- Applying the firewall plan leaves nothing to authorize. -/
theorem fw_dedup_after_apply (new old : List Firewall.IpPermission) :
    Firewall.deduplicateRules new (Firewall.applyFirewallPlan new old) = [] := by
  rw [List.eq_nil_iff_forall_not_mem]
  intro r hmem
  obtain ⟨hrnew, hrex⟩ := (fw_mem_deduplicateRules _ _ r).mp hmem
  have hmem2 : r ∈ Firewall.applyFirewallPlan new old := by
    by_cases h : Firewall.ruleExists r old
    · have hro : r ∈ old := (fw_ruleExists_iff r old).mp h
      unfold Firewall.applyFirewallPlan
      apply List.mem_append.mpr
      left
      exact List.mem_filter.mpr ⟨hro, (fw_ruleExists_iff r new).mpr hrnew⟩
    · unfold Firewall.applyFirewallPlan
      apply List.mem_append.mpr
      right
      exact (fw_mem_deduplicateRules new old r).mpr ⟨hrnew, Bool.eq_false_iff.mpr h⟩
  have h4 := (fw_ruleExists_iff r _).mpr hmem2
  rw [hrex] at h4
  exact absurd h4 (by decide)

/-- C3: the diff computation is idempotent in each domain: after simulating
the plan's application to the observed state (keep what is not removed,
append what is added), recomputing the plan yields empty add and remove
sets — for load-balancer listeners, backend instances, subnets, and
firewall rules. -/
theorem C3_diff_idempotent :
    ∀ (nl : List ELB.Listener) (cl : List ELB.ListenerDescription)
      (ni ci ns cs : List String)
      (new old : List Firewall.IpPermission),
      ELB.listenersToDelete nl (ELB.applyListenerPlan nl cl) = [] ∧
      ELB.listenersToCreate nl (ELB.applyListenerPlan nl cl) = [] ∧
      ELB.instancesToDeregister ni (ELB.applyInstancePlan ni ci) = [] ∧
      ELB.instancesToRegister ni (ELB.applyInstancePlan ni ci) = [] ∧
      ELB.subnetsToDetach ns (ELB.applySubnetPlan ns cs) = [] ∧
      ELB.subnetsToAttach ns (ELB.applySubnetPlan ns cs) = [] ∧
      Firewall.buildRevokePermissions (Firewall.applyFirewallPlan new old) new = [] ∧
      Firewall.deduplicateRules new (Firewall.applyFirewallPlan new old) = [] :=
  fun nl cl ni ci ns cs new old =>
    ⟨elb_delete_after_apply nl cl, elb_create_after_apply nl cl,
      elb_dereg_after_apply ni ci, elb_reg_after_apply ni ci,
      elb_detach_after_apply ns cs, elb_attach_after_apply ns cs,
      fw_revoke_after_apply new old, fw_dedup_after_apply new old⟩

/-- C7: the claim says an absent (nil) rule port makes firewall `Validate`
return the rule-port validation error; the code instead dereferences the nil
pointer. Evaluating the embedded `Validate` at an update event whose single
egress rule has `from_port` absent yields the panic outcome, not
`ErrSGRuleFromPortInvalid`. -/
theorem C7_nil_port_panics :
    Firewall.Validate Firewall.nilPortEvent = Firewall.VRes.panicked ∧
    Firewall.Validate Firewall.nilPortEvent ≠
      Firewall.VRes.err Firewall.FwErr.sgRuleFromPort := by
  constructor <;> decide

/-- C10 counterexample: with no crypto key the two credential values do not
land in their respective constructor positions — the access key (first
argument, as every caller passes it) ends in the secret slot and vice
versa. -/
theorem C10_counterexample :
    Credentials.NewStaticCredentials Credentials.decId "AKIAEXAMPLE" "verysecret" "" ≠
      Except.ok (Credentials.awsNewStaticCredentials "AKIAEXAMPLE" "verysecret" "") ∧
    Credentials.NewStaticCredentials Credentials.decId "AKIAEXAMPLE" "verysecret" "" =
      Except.ok (Credentials.awsNewStaticCredentials "verysecret" "AKIAEXAMPLE" "") := by
  constructor <;>
    simp [Credentials.NewStaticCredentials, Credentials.awsNewStaticCredentials]

/-- C10 (amended): with an empty crypto key `NewStaticCredentials` performs
no decryption and passes both values through unchanged, but swapped: the
first argument occupies the secret position and the second the
access-key-ID position of the SDK constructor. -/
theorem C10_passthrough_swapped :
    ∀ (dec : String → String → Except String String) (token secret : String),
      Credentials.NewStaticCredentials dec token secret "" =
        Except.ok (Credentials.awsNewStaticCredentials secret token "") := by
  intro dec token secret
  simp [Credentials.NewStaticCredentials]

/-- C4: protected-element invariant for DNS zones: an SOA or NS record
whose normalized name equals the zone's own name is never contained in the
removal set `buildRecordsToRemove` computes, whatever the desired records;
and in the delete path (desired records cleared) over observed
{SOA, NS, (www.example.com, A)} only the www A record is removed. -/
theorem C4_protected_records_never_removed :
    (∀ (ev : Route53.Event) (existing : List Route53.ResourceRecordSet)
        (P : Route53.ResourceRecordSet),
        Route53.isDefaultRule ev.name P = true →
        ∀ c ∈ Route53.buildRecordsToRemove ev existing,
          c.resourceRecordSet ≠ P) ∧
    Route53.buildRecordsToRemove Route53.exampleDeleteEvent
        Route53.exampleExisting =
      [{ action := "DELETE", resourceRecordSet := Route53.exampleWWW }] := by
  constructor
  · intro ev existing P hP c hc
    obtain ⟨rs, hrs, hif⟩ := List.mem_filterMap.mp hc
    obtain ⟨hcond, heq⟩ := Option.ite_none_right_eq_some.mp hif
    obtain rfl := Option.some.inj heq
    simp only [Bool.and_eq_true, Bool.not_eq_eq_eq_not, Bool.not_true] at hcond
    intro hEq
    have hEq2 : rs = P := hEq
    have h2 := hcond.2
    rw [hEq2] at h2
    rw [hP] at h2
    exact absurd h2 (by decide)
  · decide

/-- C4 witness: the invariant applied to the delete-path example at the
protected SOA record. -/
theorem C4_witness :
    Route53.isDefaultRule Route53.exampleDeleteEvent.name Route53.exampleSOA
      = true ∧
    ∀ c ∈ Route53.buildRecordsToRemove Route53.exampleDeleteEvent
        Route53.exampleExisting,
      c.resourceRecordSet ≠ Route53.exampleSOA :=
  ⟨by decide, C4_protected_records_never_removed.1 _ _ _ (by decide)⟩

/-- C5 counterexample: the observed (www.example.com, A) record is
non-protected and no desired record matches it on both normalized name and
type (the only desired record is a TXT at the same name), yet it is NOT
scheduled for removal — matching consults the name only, refuting the
claimed (name, type) natural key. -/
theorem C5_counterexample :
    (∀ d ∈ Route53.exampleTXTEvent.records,
        ¬(Route53.entryName d.entry =
            Route53.entryName Route53.exampleWWW.name ∧
          d.recordType = Route53.exampleWWW.recordType)) ∧
    Route53.isDefaultRule Route53.exampleTXTEvent.name Route53.exampleWWW
      = false ∧
    Route53.buildRecordsToRemove Route53.exampleTXTEvent
      [Route53.exampleWWW] = [] := by
  refine ⟨by decide, by decide, by decide⟩

/-- C5 (amended): matching between desired and observed DNS records is by
normalized name only (trailing dot stripped); the record type is not
consulted: a non-protected observed record is removed iff no desired record
has the same normalized name. -/
theorem C5_matching_by_name_only :
    ∀ (ev : Route53.Event) (existing : List Route53.ResourceRecordSet)
      (rs : Route53.ResourceRecordSet), rs ∈ existing →
      (({ action := "DELETE", resourceRecordSet := rs } : Route53.Change) ∈
          Route53.buildRecordsToRemove ev existing ↔
        (∀ d ∈ ev.records,
            Route53.entryName d.entry ≠ Route53.entryName rs.name) ∧
        Route53.isDefaultRule ev.name rs = false) := by
  intro ev existing rs hmem
  constructor
  · intro hc
    obtain ⟨rs2, hrs2, hif⟩ := List.mem_filterMap.mp hc
    obtain ⟨hcond, heq⟩ := Option.ite_none_right_eq_some.mp hif
    simp only [Option.some.injEq, Route53.Change.mk.injEq] at heq
    obtain ⟨-, hrr⟩ := heq
    subst hrr
    simp only [Bool.and_eq_true, Bool.not_eq_eq_eq_not, Bool.not_true] at hcond
    obtain ⟨h1, h2⟩ := hcond
    refine ⟨?_, h2⟩
    intro d hd
    simp only [Route53.HasRecord, List.any_eq_false] at h1
    exact fun hcontra => h1 d hd (by simpa using hcontra)
  · rintro ⟨hall, hdef⟩
    apply List.mem_filterMap.mpr
    refine ⟨rs, hmem, ?_⟩
    have h1 : Route53.HasRecord ev.records rs.name = false := by
      simp only [Route53.HasRecord, List.any_eq_false]
      exact fun d hd => by simpa using hall d hd
    simp [h1, hdef]

/-- C5 witness: the amended characterization applied at the concrete
TXT-desired / A-observed zone. -/
theorem C5_witness :
    Route53.exampleWWW ∈ [Route53.exampleWWW] ∧
    (({ action := "DELETE", resourceRecordSet := Route53.exampleWWW } :
          Route53.Change) ∈
        Route53.buildRecordsToRemove Route53.exampleTXTEvent
          [Route53.exampleWWW] ↔
      (∀ d ∈ Route53.exampleTXTEvent.records,
          Route53.entryName d.entry ≠
            Route53.entryName Route53.exampleWWW.name) ∧
      Route53.isDefaultRule Route53.exampleTXTEvent.name Route53.exampleWWW
        = false) :=
  ⟨by decide, C5_matching_by_name_only _ _ _ (by decide)⟩

/-- A truncated-at-first-failure run is a sublist of the planned calls. -/
theorem runSeq_sublist {α : Type} (ok : α → Bool) (l : List α) :
    List.Sublist (runSeq ok l) l := by
  induction l with
  | nil => simp [runSeq]
  | cons c cs ih =>
    unfold runSeq
    by_cases h : ok c
    · rw [if_pos h]
      exact List.Sublist.cons₂ c ih
    · rw [if_neg h]
      exact List.Sublist.cons₂ c (List.nil_sublist cs)

/-- The ordering property is inherited by sublists (hence by truncated
runs). -/
theorem removesPrecedeAdds_sublist {α : Type} (kind : α → OpKind)
    {t p : List α} (hs : List.Sublist t p)
    (hp : removesPrecedeAdds kind p) : removesPrecedeAdds kind t :=
  List.Pairwise.sublist hs hp

/-- All-non-add lists are vacuously ordered. -/
theorem pairwise_no_add {α : Type} (kind : α → OpKind) (l : List α)
    (h : ∀ x ∈ l, kind x ≠ OpKind.add) :
    List.Pairwise (fun x y => kind x = OpKind.add → kind y ≠ OpKind.remove) l := by
  induction l with
  | nil => exact List.Pairwise.nil
  | cons a t ih =>
    exact List.Pairwise.cons
      (fun y hy hadd => absurd hadd (h a (List.mem_cons_self a t)))
      (ih fun x hx => h x (List.mem_cons_of_mem a hx))

/-- All-non-remove lists are ordered. -/
theorem pairwise_no_remove {α : Type} (kind : α → OpKind) (l : List α)
    (h : ∀ y ∈ l, kind y ≠ OpKind.remove) :
    List.Pairwise (fun x y => kind x = OpKind.add → kind y ≠ OpKind.remove) l := by
  induction l with
  | nil => exact List.Pairwise.nil
  | cons a t ih =>
    exact List.Pairwise.cons
      (fun y hy _ => h y (List.mem_cons_of_mem a hy))
      (ih fun x hx => h x (List.mem_cons_of_mem a hx))

/-- A list splitting into a no-add half followed by a no-remove half is
ordered. -/
theorem removesPrecedeAdds_of_split {α : Type} (kind : α → OpKind)
    (t l1 l2 : List α) (ht : t = l1 ++ l2)
    (h1 : ∀ x ∈ l1, kind x ≠ OpKind.add)
    (h2 : ∀ y ∈ l2, kind y ≠ OpKind.remove) :
    removesPrecedeAdds kind t := by
  subst ht
  unfold removesPrecedeAdds
  refine List.pairwise_append.mpr
    ⟨pairwise_no_add kind l1 h1, pairwise_no_remove kind l2 h2, ?_⟩
  intro a ha b hb hadd
  exact absurd hadd (h1 a ha)

/-- Membership in an if-guarded singleton forces the element. -/
theorem mem_ite_singleton {α : Type} {c : Prop} [Decidable c] {a x : α}
    (hx : x ∈ if c then [a] else []) : x = a := by
  split at hx
  · simpa using hx
  · simp at hx

/-- The planned firewall update calls have all revokes before all
authorizes. -/
theorem fw_planned_ordering (ingress egress : List Firewall.Rule)
    (sgIngress sgEgress : List Firewall.IpPermission) :
    removesPrecedeAdds Firewall.fwCallKind
      (Firewall.fwUpdatePlanned ingress egress sgIngress sgEgress) := by
  unfold Firewall.fwUpdatePlanned
  apply removesPrecedeAdds_of_split Firewall.fwCallKind _
    ([Firewall.FwCall.describeSecurityGroups]
      ++ (if (Firewall.buildRevokePermissions sgIngress
            (Firewall.buildPermissions ingress)).length > 0
          then [Firewall.FwCall.revokeIngress
            (Firewall.buildRevokePermissions sgIngress
              (Firewall.buildPermissions ingress))] else [])
      ++ (if (Firewall.buildRevokePermissions sgEgress
            (Firewall.buildPermissions egress)).length > 0
          then [Firewall.FwCall.revokeEgress
            (Firewall.buildRevokePermissions sgEgress
              (Firewall.buildPermissions egress))] else []))
    ((if (Firewall.deduplicateRules (Firewall.buildPermissions ingress)
          sgIngress).length > 0
        then [Firewall.FwCall.authorizeIngress
          (Firewall.deduplicateRules (Firewall.buildPermissions ingress)
            sgIngress)] else [])
      ++ (if (Firewall.deduplicateRules (Firewall.buildPermissions egress)
          sgEgress).length > 0
        then [Firewall.FwCall.authorizeEgress
          (Firewall.deduplicateRules (Firewall.buildPermissions egress)
            sgEgress)] else [])
      ++ [Firewall.FwCall.createTags])
  · simp [List.append_assoc]
  · intro x hx
    rcases List.mem_append.mp hx with hx' | hx'
    · rcases List.mem_append.mp hx' with hx2 | hx2
      · rw [List.mem_singleton.mp hx2]
        simp [Firewall.fwCallKind]
      · rw [mem_ite_singleton hx2]
        simp [Firewall.fwCallKind]
    · rw [mem_ite_singleton hx']
      simp [Firewall.fwCallKind]
  · intro y hy
    rcases List.mem_append.mp hy with hy' | hy'
    · rcases List.mem_append.mp hy' with hy2 | hy2
      · rw [mem_ite_singleton hy2]
        simp [Firewall.fwCallKind]
      · rw [mem_ite_singleton hy2]
        simp [Firewall.fwCallKind]
    · rw [List.mem_singleton.mp hy']
      simp [Firewall.fwCallKind]

/-- C6: within one reconciliation pass every remove-kind provider call is
issued before every add-kind call: listener deletion before creation,
instance deregistration before registration, subnet detach before attach,
and firewall revokes before authorizes — in every trace, including ones
truncated by a provider failure. -/
theorem C6_removes_precede_adds :
    ∀ (okE : ELB.ELBCall → Bool) (nl : List ELB.Listener)
      (cl : List ELB.ListenerDescription) (ni ci ns cs : List String)
      (okF : Firewall.FwCall → Bool) (ingress egress : List Firewall.Rule)
      (sgIngress sgEgress : List Firewall.IpPermission),
      removesPrecedeAdds ELB.elbCallKind (ELB.updateELBListenersCalls okE nl cl) ∧
      removesPrecedeAdds ELB.elbCallKind (ELB.updateELBInstancesCalls okE ni ci) ∧
      removesPrecedeAdds ELB.elbCallKind (ELB.updateELBNetworksCalls okE ns cs) ∧
      removesPrecedeAdds Firewall.fwCallKind
        (Firewall.fwUpdateCalls okF ingress egress sgIngress sgEgress) := by
  intro okE nl cl ni ci ns cs okF ingress egress sgIngress sgEgress
  refine ⟨?_, ?_, ?_, ?_⟩
  · unfold ELB.updateELBListenersCalls
    refine removesPrecedeAdds_sublist ELB.elbCallKind (runSeq_sublist okE _)
      (removesPrecedeAdds_of_split _ _ _ _ rfl ?_ ?_)
    · intro x hx
      rw [mem_ite_singleton hx]
      simp [ELB.elbCallKind]
    · intro y hy
      rw [mem_ite_singleton hy]
      simp [ELB.elbCallKind]
  · unfold ELB.updateELBInstancesCalls
    refine removesPrecedeAdds_sublist ELB.elbCallKind (runSeq_sublist okE _)
      (removesPrecedeAdds_of_split _ _ _ _ rfl ?_ ?_)
    · intro x hx
      rw [mem_ite_singleton hx]
      simp [ELB.elbCallKind]
    · intro y hy
      rw [mem_ite_singleton hy]
      simp [ELB.elbCallKind]
  · unfold ELB.updateELBNetworksCalls
    refine removesPrecedeAdds_sublist ELB.elbCallKind (runSeq_sublist okE _)
      (removesPrecedeAdds_of_split _ _ _ _ rfl ?_ ?_)
    · intro x hx
      rw [mem_ite_singleton hx]
      simp [ELB.elbCallKind]
    · intro y hy
      rw [mem_ite_singleton hy]
      simp [ELB.elbCallKind]
  · unfold Firewall.fwUpdateCalls
    exact removesPrecedeAdds_sublist Firewall.fwCallKind
      (runSeq_sublist okF _)
      (fw_planned_ordering ingress egress sgIngress sgEgress)

/-- A single rule check never yields the rules-presence error. -/
theorem fw_checkRule_ne_sgRules (r : Firewall.Rule) :
    Firewall.checkRule r ≠ Firewall.VRes.err Firewall.FwErr.sgRules := by
  unfold Firewall.checkRule
  repeat' split
  all_goals decide

/-- The rule loops never yield the rules-presence error. -/
theorem fw_checkRuleList_ne_sgRules (l : List Firewall.Rule) :
    Firewall.checkRuleList l ≠ Firewall.VRes.err Firewall.FwErr.sgRules := by
  induction l with
  | nil => simp [Firewall.checkRuleList]
  | cons r t ih =>
    have hr := fw_checkRule_ne_sgRules r
    unfold Firewall.checkRuleList
    cases h : Firewall.checkRule r with
    | ok => exact ih
    | err e =>
      rw [h] at hr
      exact hr
    | panicked => simp

/-- C8 (implicit): given the earlier field checks pass, firewall `Validate`
returns the rules-invalid error iff `Rules.Egress` is empty — the ingress
list is never consulted by the rules-presence check. -/
theorem C8_rules_check_egress_only :
    ∀ (ev : Firewall.Event),
      ev.vpcID ≠ "" → ev.datacenterRegion ≠ "" →
      ev.accessKeyID ≠ "" → ev.secretAccessKey ≠ "" →
      (ev.subject ≠ "firewall.create.aws" → ev.securityGroupAWSID ≠ none) →
      ev.subject ≠ "firewall.delete.aws" → ev.name ≠ none →
      (Firewall.Validate ev = Firewall.VRes.err Firewall.FwErr.sgRules ↔
        ev.rules.egress = []) := by
  intro ev h1 h2 h3 h4 h5 h6 h7
  unfold Firewall.Validate
  rw [if_neg h1, if_neg h2,
    if_neg (show ¬(ev.accessKeyID = "" ∨ ev.secretAccessKey = "") by
      simp [h3, h4]),
    if_neg (show ¬(ev.subject ≠ "firewall.create.aws" ∧
        ev.securityGroupAWSID = none) from fun h => h5 h.1 h.2),
    if_pos h6, if_neg h7]
  by_cases hE : ev.rules.egress = []
  · rw [if_pos (by simp [hE])]
    simp [hE]
  · rw [if_neg (by simp [Nat.lt_one_iff, List.length_eq_zero, hE])]
    have hne : (match Firewall.checkRuleList ev.rules.ingress with
        | Firewall.VRes.ok => Firewall.checkRuleList ev.rules.egress
        | out => out) ≠ Firewall.VRes.err Firewall.FwErr.sgRules := by
      cases h : Firewall.checkRuleList ev.rules.ingress with
      | ok => exact fw_checkRuleList_ne_sgRules _
      | err e =>
        have h9 := fw_checkRuleList_ne_sgRules ev.rules.ingress
        rw [h] at h9
        exact h9
      | panicked => simp
    exact Iff.intro (fun hcontra => absurd hcontra hne)
      (fun hEe => absurd hEe hE)

/-- C8 witness: a concrete update event with non-empty ingress and empty
egress is rejected with the rules-invalid error. -/
theorem C8_witness :
    Firewall.Validate Firewall.egressEmptyEvent =
      Firewall.VRes.err Firewall.FwErr.sgRules :=
  (C8_rules_check_egress_only Firewall.egressEmptyEvent (by decide)
    (by decide) (by decide) (by decide) (fun _ => by decide) (by decide)
    (by decide)).mpr rfl

/-- C9: when the provider's DeleteVpc call fails, vpc `Delete` reports
success (a nil error), stores the warning text in the event's error field,
leaves every other field unchanged, and makes no further provider call. -/
theorem C9_vpc_delete_best_effort :
    ∀ (provider : Vpc.VpcCall → Except String Unit) (ev : Vpc.Event)
      (e : String),
      provider (Vpc.VpcCall.deleteVpc ev.vpcID) = Except.error e →
      (Vpc.Delete provider ev).2.1 = none ∧
      (Vpc.Delete provider ev).1.errorMessage =
        "WARN : Could not remove the vpc - " ++ e ∧
      (Vpc.Delete provider ev).1.uuid = ev.uuid ∧
      (Vpc.Delete provider ev).1.batchID = ev.batchID ∧
      (Vpc.Delete provider ev).1.providerType = ev.providerType ∧
      (Vpc.Delete provider ev).1.datacenterName = ev.datacenterName ∧
      (Vpc.Delete provider ev).1.datacenterRegion = ev.datacenterRegion ∧
      (Vpc.Delete provider ev).1.awsAccessKeyID = ev.awsAccessKeyID ∧
      (Vpc.Delete provider ev).1.awsSecretAccessKey = ev.awsSecretAccessKey ∧
      (Vpc.Delete provider ev).1.vpcID = ev.vpcID ∧
      (Vpc.Delete provider ev).1.vpcSubnet = ev.vpcSubnet ∧
      (Vpc.Delete provider ev).1.subject = ev.subject ∧
      (Vpc.Delete provider ev).1.cryptoKey = ev.cryptoKey ∧
      (Vpc.Delete provider ev).2.2 = [Vpc.VpcCall.deleteVpc ev.vpcID] := by
  intro provider ev e h
  unfold Vpc.Delete
  rw [h]
  simp

/-- C9 witness: the best-effort behaviour at a concrete event against a
provider that reports a dependency violation. -/
theorem C9_witness :
    Vpc.failingProvider (Vpc.VpcCall.deleteVpc Vpc.exampleEvent.vpcID) =
      Except.error "DependencyViolation" ∧
    (Vpc.Delete Vpc.failingProvider Vpc.exampleEvent).2.1 = none :=
  ⟨rfl, (C9_vpc_delete_best_effort Vpc.failingProvider Vpc.exampleEvent
    "DependencyViolation" rfl).1⟩
